import Mathlib

/-!
Verification development for the diamond-topology traffic-engineering
controller.  The definitions below are shallow embeddings of the Python
sources:

* `src/pox_ext/diamond/connection_manager.py` (flow balancing),
* `src/pox_ext/diamond/router.py` (route validation and switch learning),
* `src/sockets_lib/connection.py` (non-blocking connection multiplexer).

Addresses, MAC addresses and switch ports are modelled as natural numbers;
payloads are byte lists.
-/

namespace NetworkOptimizer

/-! ### Connection manager (`src/pox_ext/diamond/connection_manager.py`)

The manager keeps two insertion-ordered reference-count maps
`__up_connections` and `__down_connections` (Python dicts preserve
insertion order, keys are unique, and `popitem` removes the most recently
inserted entry).  They are modelled as association lists whose entries are
appended on insert.  Counts are integers, matching Python's unbounded
signed arithmetic. -/

/-- Host address (the IP strings of the source are modelled as naturals). -/
abbrev Addr := Nat

/-- Canonical flow key: an ordered pair of addresses. -/
abbrev FlowKey := Addr × Addr

/-- Embeds `key = tuple(sorted([event.dest, event.src]))`. -/
def canonKey (src dest : Addr) : FlowKey :=
  if dest ≤ src then (dest, src) else (src, dest)

/-- Insertion-ordered mapping from flow key to use count (a Python dict). -/
abbrev CMap := List (FlowKey × Int)

/-- Key list of a connection map, in insertion order. -/
def cmapKeys (m : CMap) : List FlowKey := m.map Prod.fst

/-- Dict lookup (keys of a Python dict are unique, so first match). -/
def lookupKey : CMap → FlowKey → Option Int
  | [], _ => none
  | (k', v) :: rest, k => if k' = k then some v else lookupKey rest k

/-- Dict value update at a key (`m[key] += 1` / `m[key] -= 1`). -/
def adjustKey (m : CMap) (k : FlowKey) (f : Int → Int) : CMap :=
  m.map fun p => if p.1 = k then (p.1, f p.2) else p

/-- Dict deletion (`del m[key]`). -/
def eraseKey (m : CMap) (k : FlowKey) : CMap :=
  m.filter fun p => decide (p.1 ≠ k)

/-- One call made on the registered `diamond_router`, with the address
arguments in the order the source passes them. -/
inductive RouterCall
  | addUp (src dest : Addr)
  | addDown (src dest : Addr)
  | removeUp (src dest : Addr)
  | removeDown (src dest : Addr)
deriving DecidableEq, Repr

/-- State of `ConnectionManager`: the two reference-count maps. -/
structure CMState where
  up : CMap
  down : CMap
deriving DecidableEq, Repr

/-- Embeds `ConnectionManager.__connectionStarted`.  The boolean result of
the single `core.diamond_router.add_route_up`/`add_route_down` call made on
the new-key path is supplied by the oracle argument `ok` (it depends on the
router's learned state, which the manager does not inspect).  Returns the
new state together with the router calls made, in order. -/
def connectionStarted (st : CMState) (src dest : Addr) (ok : Bool) :
    CMState × List RouterCall :=
  let key := canonKey src dest
  if key ∈ cmapKeys st.up then
    ({ st with up := adjustKey st.up key (· + 1) }, [])
  else if key ∈ cmapKeys st.down then
    ({ st with down := adjustKey st.down key (· + 1) }, [])
  else
    if st.down.length < st.up.length then
      (if ok then { st with down := st.down ++ [(key, 1)] } else st,
       [RouterCall.addDown src dest])
    else
      (if ok then { st with up := st.up ++ [(key, 1)] } else st,
       [RouterCall.addUp src dest])

/-- First rebalance loop of `__connectionEnded`:
`while len(up) > len(down) + 1`, `popitem()` the most recently inserted
entry of `up`, call `remove_route_up` then `add_route_down` on its key.
The popped entry is never inserted into the down map (the source binds
`value` from `popitem` and does not use it).  The down map is not touched
by this loop, so only its length `dlen` is needed.  The `fuel` argument
makes the recursion structural; `rebalanceUp` starts it at `u.length`,
which bounds the number of iterations since each pop shortens `u`. -/
def rebalanceUpAux : Nat → CMap → Nat → CMap × List RouterCall
  | 0, u, _ => (u, [])
  | fuel + 1, u, dlen =>
    if dlen + 1 < u.length then
      match u.getLast? with
      | some kv =>
        let r := rebalanceUpAux fuel u.dropLast dlen
        (r.1, RouterCall.removeUp kv.1.1 kv.1.2 ::
              RouterCall.addDown kv.1.1 kv.1.2 :: r.2)
      | none => (u, [])
    else (u, [])

/-- The first rebalance loop, run to completion. -/
def rebalanceUp (u : CMap) (dlen : Nat) : CMap × List RouterCall :=
  rebalanceUpAux u.length u dlen

/-- Second rebalance loop of `__connectionEnded`, the mirror image:
`while len(down) > len(up) + 1`, pop from `down`, call `remove_route_down`
then `add_route_up`. -/
def rebalanceDownAux : Nat → CMap → Nat → CMap × List RouterCall
  | 0, d, _ => (d, [])
  | fuel + 1, d, ulen =>
    if ulen + 1 < d.length then
      match d.getLast? with
      | some kv =>
        let r := rebalanceDownAux fuel d.dropLast ulen
        (r.1, RouterCall.removeDown kv.1.1 kv.1.2 ::
              RouterCall.addUp kv.1.1 kv.1.2 :: r.2)
      | none => (d, [])
    else (d, [])

/-- The second rebalance loop, run to completion. -/
def rebalanceDown (d : CMap) (ulen : Nat) : CMap × List RouterCall :=
  rebalanceDownAux d.length d ulen

/-- Decrement phase of `ConnectionManager.__connectionEnded`: decrement the
count of the key in whichever map holds it; when the count reaches zero the
key is deleted and the matching `remove_route_*` call is made.  A close for
an untracked key changes nothing. -/
def closePhase (st : CMState) (src dest : Addr) : CMState × List RouterCall :=
  let key := canonKey src dest
  if key ∈ cmapKeys st.up then
    let u' := adjustKey st.up key (· - 1)
    if lookupKey u' key = some 0 then
      ({ st with up := eraseKey u' key }, [RouterCall.removeUp src dest])
    else ({ st with up := u' }, [])
  else if key ∈ cmapKeys st.down then
    let d' := adjustKey st.down key (· - 1)
    if lookupKey d' key = some 0 then
      ({ st with down := eraseKey d' key }, [RouterCall.removeDown src dest])
    else ({ st with down := d' }, [])
  else (st, [])

/-- Embeds `ConnectionManager.__connectionEnded`: the decrement phase
followed by the two rebalance loops.  The second loop's guard reads the
length of the up map left by the first loop. -/
def connectionEnded (st : CMState) (src dest : Addr) :
    CMState × List RouterCall :=
  let step1 := closePhase st src dest
  let r2 := rebalanceUp step1.1.up step1.1.down.length
  let r3 := rebalanceDown step1.1.down r2.1.length
  (⟨r2.1, r3.1⟩, step1.2 ++ r2.2 ++ r3.2)

/-- One flow-open or flow-close event as delivered by the listener; open
events carry the router-oracle answer for the add call they may make. -/
inductive FlowEvent
  | opened (src dest : Addr) (ok : Bool)
  | ended (src dest : Addr)
deriving DecidableEq, Repr

/-- One event dispatch of the connection manager. -/
def cmStep (st : CMState) : FlowEvent → CMState
  | .opened s d ok => (connectionStarted st s d ok).1
  | .ended s d => (connectionEnded st s d).1

/-- The manager's state after processing a sequence of events, starting
from the empty maps it is constructed with. -/
def cmRun (evs : List FlowEvent) : CMState :=
  evs.foldl cmStep ⟨[], []⟩

/-! ### Lemmas about the rebalance loops -/

theorem rebalanceUpAux_fst_length (fuel : Nat) :
    ∀ (u : CMap) (dlen : Nat), u.length ≤ fuel →
      (rebalanceUpAux fuel u dlen).1.length = min u.length (dlen + 1) := by
  induction fuel with
  | zero =>
    intro u dlen h
    have hu : u = [] := List.length_eq_zero.mp (Nat.le_zero.mp h)
    subst hu
    simp [rebalanceUpAux]
  | succ fuel ih =>
    intro u dlen h
    by_cases hc : dlen + 1 < u.length
    · rcases List.eq_nil_or_concat u with rfl | ⟨L, b, rfl⟩
      · simp at hc
      · simp only [List.concat_eq_append] at *
        have hlen : L.length ≤ fuel := by
          simp only [List.length_append, List.length_cons, List.length_nil] at h
          omega
        simp only [rebalanceUpAux, hc, if_pos, List.getLast?_concat,
          List.dropLast_concat]
        rw [ih L dlen hlen]
        simp only [List.length_append, List.length_cons, List.length_nil] at hc ⊢
        omega
    · simp only [rebalanceUpAux, hc, if_neg, not_false_iff]
      simp at hc
      omega

theorem rebalanceUp_fst_length (u : CMap) (dlen : Nat) :
    (rebalanceUp u dlen).1.length = min u.length (dlen + 1) :=
  rebalanceUpAux_fst_length u.length u dlen le_rfl

theorem rebalanceDownAux_fst_length (fuel : Nat) :
    ∀ (d : CMap) (ulen : Nat), d.length ≤ fuel →
      (rebalanceDownAux fuel d ulen).1.length = min d.length (ulen + 1) := by
  induction fuel with
  | zero =>
    intro d ulen h
    have hd : d = [] := List.length_eq_zero.mp (Nat.le_zero.mp h)
    subst hd
    simp [rebalanceDownAux]
  | succ fuel ih =>
    intro d ulen h
    by_cases hc : ulen + 1 < d.length
    · rcases List.eq_nil_or_concat d with rfl | ⟨L, b, rfl⟩
      · simp at hc
      · simp only [List.concat_eq_append] at *
        have hlen : L.length ≤ fuel := by
          simp only [List.length_append, List.length_cons, List.length_nil] at h
          omega
        simp only [rebalanceDownAux, hc, if_pos, List.getLast?_concat,
          List.dropLast_concat]
        rw [ih L ulen hlen]
        simp only [List.length_append, List.length_cons, List.length_nil] at hc ⊢
        omega
    · simp only [rebalanceDownAux, hc, if_neg, not_false_iff]
      simp at hc
      omega

theorem rebalanceDown_fst_length (d : CMap) (ulen : Nat) :
    (rebalanceDownAux d.length d ulen).1.length = min d.length (ulen + 1) :=
  rebalanceDownAux_fst_length d.length d ulen le_rfl

theorem rebalanceUpAux_fst_sublist (fuel : Nat) :
    ∀ (u : CMap) (dlen : Nat), List.Sublist (rebalanceUpAux fuel u dlen).1 u := by
  induction fuel with
  | zero => intro u dlen; simp [rebalanceUpAux]
  | succ fuel ih =>
    intro u dlen
    by_cases hc : dlen + 1 < u.length
    · rcases List.eq_nil_or_concat u with rfl | ⟨L, b, rfl⟩
      · simp at hc
      · simp only [List.concat_eq_append] at *
        simp only [rebalanceUpAux, hc, if_pos, List.getLast?_concat,
          List.dropLast_concat]
        exact (ih L dlen).trans (List.sublist_append_left L [b])
    · simp [rebalanceUpAux, hc]

theorem rebalanceUp_fst_sublist (u : CMap) (dlen : Nat) :
    List.Sublist (rebalanceUp u dlen).1 u :=
  rebalanceUpAux_fst_sublist u.length u dlen

theorem rebalanceDownAux_fst_sublist (fuel : Nat) :
    ∀ (d : CMap) (ulen : Nat), List.Sublist (rebalanceDownAux fuel d ulen).1 d := by
  induction fuel with
  | zero => intro d ulen; simp [rebalanceDownAux]
  | succ fuel ih =>
    intro d ulen
    by_cases hc : ulen + 1 < d.length
    · rcases List.eq_nil_or_concat d with rfl | ⟨L, b, rfl⟩
      · simp at hc
      · simp only [List.concat_eq_append] at *
        simp only [rebalanceDownAux, hc, if_pos, List.getLast?_concat,
          List.dropLast_concat]
        exact (ih L ulen).trans (List.sublist_append_left L [b])
    · simp [rebalanceDownAux, hc]

theorem rebalanceDown_fst_sublist (d : CMap) (ulen : Nat) :
    List.Sublist (rebalanceDown d ulen).1 d :=
  rebalanceDownAux_fst_sublist d.length d ulen

/-! ### The balance invariant (claim C4) -/

/-- The two sides are within one tracked flow of each other. -/
def Balanced (st : CMState) : Prop :=
  st.up.length ≤ st.down.length + 1 ∧ st.down.length ≤ st.up.length + 1

theorem connectionEnded_balanced (st : CMState) (src dest : Addr) :
    Balanced (connectionEnded st src dest).1 := by
  have h2 := rebalanceUp_fst_length (closePhase st src dest).1.up
    (closePhase st src dest).1.down.length
  have h3 := rebalanceDown_fst_length (closePhase st src dest).1.down
    (rebalanceUp (closePhase st src dest).1.up
      (closePhase st src dest).1.down.length).1.length
  constructor <;>
    simp only [connectionEnded, rebalanceDown] at * <;>
    omega

theorem adjustKey_length (m : CMap) (k : FlowKey) (f : Int → Int) :
    (adjustKey m k f).length = m.length :=
  List.length_map m _

theorem connectionStarted_balanced (st : CMState) (src dest : Addr) (ok : Bool)
    (h : Balanced st) : Balanced (connectionStarted st src dest ok).1 := by
  rcases h with ⟨h1, h2⟩
  unfold connectionStarted
  by_cases hu : canonKey src dest ∈ cmapKeys st.up <;>
    by_cases hd : canonKey src dest ∈ cmapKeys st.down <;>
    by_cases hlt : st.down.length < st.up.length <;>
    cases ok <;>
    simp [hu, hd, hlt, adjustKey_length, Balanced] <;>
    omega

theorem cmStep_balanced_foldl :
    ∀ (evs : List FlowEvent) (st : CMState), Balanced st →
      Balanced (evs.foldl cmStep st) := by
  intro evs
  induction evs with
  | nil => intro st h; exact h
  | cons e rest ih =>
    intro st h
    apply ih
    cases e with
    | opened s d ok => exact connectionStarted_balanced st s d ok h
    | ended s d => exact connectionEnded_balanced st s d

/-- C4: after any sequence of flow-open and flow-close events has been
processed from the initial empty maps, the sizes of the up and down maps
differ by at most one.  (Taking all event-list prefixes covers the state
after each individual handler returns.) -/
theorem C4_balance_invariant (evs : List FlowEvent) :
    (((cmRun evs).up.length : Int) - ((cmRun evs).down.length : Int)).natAbs ≤ 1 := by
  have h := cmStep_balanced_foldl evs ⟨[], []⟩ (by exact ⟨by simp, by simp⟩)
  rcases h with ⟨h1, h2⟩
  simp only [cmRun] at *
  omega

/-! ### Key disjointness (claim C5) -/

theorem cmapKeys_adjustKey (m : CMap) (k : FlowKey) (f : Int → Int) :
    cmapKeys (adjustKey m k f) = cmapKeys m := by
  induction m with
  | nil => rfl
  | cons p rest ih =>
    by_cases h : p.1 = k <;> simp [cmapKeys, adjustKey, h] at * <;> exact ih

theorem cmapKeys_eraseKey_sublist (m : CMap) (k : FlowKey) :
    List.Sublist (cmapKeys (eraseKey m k)) (cmapKeys m) :=
  (List.filter_sublist m).map Prod.fst

theorem disjoint_of_sublists {A B A' B' : List FlowKey}
    (h : List.Disjoint A B) (ha : List.Sublist A' A) (hb : List.Sublist B' B) :
    List.Disjoint A' B' :=
  fun _ h1 h2 => h (ha.subset h1) (hb.subset h2)

theorem closePhase_up_keys_sublist (st : CMState) (src dest : Addr) :
    List.Sublist (cmapKeys (closePhase st src dest).1.up) (cmapKeys st.up) := by
  unfold closePhase
  by_cases hu : canonKey src dest ∈ cmapKeys st.up
  · by_cases hz :
        lookupKey (adjustKey st.up (canonKey src dest) (· - 1)) (canonKey src dest) =
          some 0
    · simp only [hu, hz, if_pos]
      exact (cmapKeys_eraseKey_sublist _ _).trans
        (by rw [cmapKeys_adjustKey])
    · simp only [hu, hz, if_pos, if_neg, not_false_iff]
      rw [cmapKeys_adjustKey]
  · by_cases hd : canonKey src dest ∈ cmapKeys st.down <;>
      by_cases hz :
        lookupKey (adjustKey st.down (canonKey src dest) (· - 1)) (canonKey src dest) =
          some 0 <;>
      simp [hu, hd, hz]

theorem closePhase_down_keys_sublist (st : CMState) (src dest : Addr) :
    List.Sublist (cmapKeys (closePhase st src dest).1.down) (cmapKeys st.down) := by
  unfold closePhase
  by_cases hu : canonKey src dest ∈ cmapKeys st.up
  · by_cases hz :
        lookupKey (adjustKey st.up (canonKey src dest) (· - 1)) (canonKey src dest) =
          some 0 <;>
      simp [hu, hz]
  · by_cases hd : canonKey src dest ∈ cmapKeys st.down
    · by_cases hz :
          lookupKey (adjustKey st.down (canonKey src dest) (· - 1)) (canonKey src dest) =
            some 0
      · simp only [hu, hd, hz, if_pos, if_neg, not_false_iff]
        exact (cmapKeys_eraseKey_sublist _ _).trans
          (by rw [cmapKeys_adjustKey])
      · simp only [hu, hd, hz, if_pos, if_neg, not_false_iff]
        rw [cmapKeys_adjustKey]
    · simp [hu, hd]

/-- A flow key is tracked on at most one side. -/
def KeysDisjoint (st : CMState) : Prop :=
  List.Disjoint (cmapKeys st.up) (cmapKeys st.down)

theorem connectionStarted_disjoint (st : CMState) (src dest : Addr) (ok : Bool)
    (h : KeysDisjoint st) : KeysDisjoint (connectionStarted st src dest ok).1 := by
  unfold connectionStarted
  by_cases hu : canonKey src dest ∈ cmapKeys st.up
  · simpa only [hu, if_pos, KeysDisjoint, cmapKeys_adjustKey] using h
  · by_cases hd : canonKey src dest ∈ cmapKeys st.down
    · simpa only [hu, hd, if_pos, if_neg, not_false_iff, KeysDisjoint,
        cmapKeys_adjustKey] using h
    · by_cases hlt : st.down.length < st.up.length <;> cases ok
      · simp only [hu, hd, hlt, if_pos, if_neg, not_false_iff, Bool.false_eq_true,
          ite_false]
        exact h
      · simp only [hu, hd, hlt, if_pos, if_neg, not_false_iff, ite_true,
          KeysDisjoint]
        intro a ha hb
        simp only [cmapKeys, List.map_append, List.map_cons, List.map_nil,
          List.mem_append, List.mem_cons, List.not_mem_nil, or_false] at hb
        rcases hb with hb | hb
        · exact h ha hb
        · exact hu (hb ▸ ha)
      · simp only [hu, hd, hlt, if_pos, if_neg, not_false_iff, Bool.false_eq_true,
          ite_false]
        exact h
      · simp only [hu, hd, hlt, if_pos, if_neg, not_false_iff, ite_true,
          KeysDisjoint]
        intro a ha hb
        simp only [cmapKeys, List.map_append, List.map_cons, List.map_nil,
          List.mem_append, List.mem_cons, List.not_mem_nil, or_false] at ha
        rcases ha with ha | ha
        · exact h ha hb
        · exact hd (ha ▸ hb)

theorem connectionEnded_disjoint (st : CMState) (src dest : Addr)
    (h : KeysDisjoint st) : KeysDisjoint (connectionEnded st src dest).1 := by
  have hup : List.Sublist (cmapKeys (connectionEnded st src dest).1.up)
      (cmapKeys st.up) := by
    simp only [connectionEnded]
    exact ((rebalanceUp_fst_sublist _ _).map Prod.fst).trans
      (closePhase_up_keys_sublist st src dest)
  have hdown : List.Sublist (cmapKeys (connectionEnded st src dest).1.down)
      (cmapKeys st.down) := by
    simp only [connectionEnded]
    exact ((rebalanceDown_fst_sublist _ _).map Prod.fst).trans
      (closePhase_down_keys_sublist st src dest)
  exact disjoint_of_sublists h hup hdown

theorem cmStep_disjoint_foldl :
    ∀ (evs : List FlowEvent) (st : CMState), KeysDisjoint st →
      KeysDisjoint (evs.foldl cmStep st) := by
  intro evs
  induction evs with
  | nil => intro st h; exact h
  | cons e rest ih =>
    intro st h
    apply ih
    cases e with
    | opened s d ok => exact connectionStarted_disjoint st s d ok h
    | ended s d => exact connectionEnded_disjoint st s d h

/-- C5: after any sequence of flow-open and flow-close events has been
processed from the initial empty maps, no flow key is present in both the
up map and the down map.  (Taking all event-list prefixes covers the state
after each individual handler returns.) -/
theorem C5_key_in_at_most_one_map (evs : List FlowEvent) :
    List.Disjoint (cmapKeys (cmRun evs).up) (cmapKeys (cmRun evs).down) :=
  cmStep_disjoint_foldl evs ⟨[], []⟩ (by intro a ha hb; simp [cmapKeys] at ha)

/-! ### Flow-open behaviour (claim C6) and the rebalance slip (claim C1) -/

/-- C6: on a flow-open event the manager computes the canonical key; a key
already tracked on either side just has that side's count incremented with
no router call and no other change; a fresh key causes exactly one add call
on the side with fewer tracked keys (ties to up), and the key enters that
side's map at count 1 exactly when the call reported success. -/
theorem C6_flow_open (st : CMState) (src dest : Addr) (ok : Bool) :
    (canonKey src dest ∈ cmapKeys st.up →
       connectionStarted st src dest ok =
         ({ st with up := adjustKey st.up (canonKey src dest) (· + 1) }, []))
  ∧ (canonKey src dest ∉ cmapKeys st.up →
     canonKey src dest ∈ cmapKeys st.down →
       connectionStarted st src dest ok =
         ({ st with down := adjustKey st.down (canonKey src dest) (· + 1) }, []))
  ∧ (canonKey src dest ∉ cmapKeys st.up →
     canonKey src dest ∉ cmapKeys st.down →
     st.down.length < st.up.length →
       connectionStarted st src dest ok =
         (if ok then { st with down := st.down ++ [(canonKey src dest, 1)] } else st,
          [RouterCall.addDown src dest]))
  ∧ (canonKey src dest ∉ cmapKeys st.up →
     canonKey src dest ∉ cmapKeys st.down →
     st.up.length ≤ st.down.length →
       connectionStarted st src dest ok =
         (if ok then { st with up := st.up ++ [(canonKey src dest, 1)] } else st,
          [RouterCall.addUp src dest])) := by
  refine ⟨?_, ?_, ?_, ?_⟩
  · intro h1
    simp [connectionStarted, h1]
  · intro h1 h2
    simp [connectionStarted, h1, h2]
  · intro h1 h2 h3
    simp [connectionStarted, h1, h2, h3]
  · intro h1 h2 h3
    simp [connectionStarted, h1, h2, Nat.not_lt.mpr h3]

/-- Witness for C6 at a concrete input: opening flow (1, 0) on empty maps
takes the fresh-key tie branch, so exactly one router call
(`add_route_up 1 0`) is made and the canonical key (0, 1) enters the up map
at count 1. -/
theorem C6_flow_open_witness :
    connectionStarted ⟨[], []⟩ 1 0 true =
      (if true then { up := [((0, 1), 1)], down := [] } else ⟨[], []⟩,
       [RouterCall.addUp 1 0]) := by
  have h := (C6_flow_open ⟨[], []⟩ 1 0 true).2.2.2
    (by decide) (by decide) (by decide)
  simpa using h

/-- C1 (code bug): evaluation of the flow-close handler at the failing
input.  Starting from four flows tracked up and none down, closing one
leaves one flow tracked up and zero down: the decrement phase removes the
closed key, then the rebalance loop pops two further keys from the up map,
moves their routes down at the router, but never inserts them into the down
map, so the maps end at sizes 1 and 0 instead of the 3 and 1 the claim
requires. -/
theorem C1_rebalance_drops_keys :
    connectionEnded ⟨[((0, 1), 1), ((2, 3), 1), ((4, 5), 1), ((6, 7), 1)], []⟩ 0 1 =
      (⟨[((2, 3), 1)], []⟩,
       [RouterCall.removeUp 0 1,
        RouterCall.removeUp 6 7, RouterCall.addDown 6 7,
        RouterCall.removeUp 4 5, RouterCall.addDown 4 5]) ∧
    (connectionEnded ⟨[((0, 1), 1), ((2, 3), 1), ((4, 5), 1), ((6, 7), 1)], []⟩
        0 1).1.up.length = 1 ∧
    (connectionEnded ⟨[((0, 1), 1), ((2, 3), 1), ((4, 5), 1), ((6, 7), 1)], []⟩
        0 1).1.down.length = 0 := by
  decide

/-! ### Diamond router (`src/pox_ext/diamond/router.py`)

The router holds the two smart edge switches (dpids 1 and 4); each is
modelled by its learned-IP set, the only state `__route_should_be_established`
and `add_route` consult.  `add_route` contains Python assertions; an
assertion failure is modelled as an exception, and the flow-mod messages
actually sent before it fires are reported alongside. -/

/-- Learned-IP sets of edge switches 1 and 4 (`none` while a switch has not
connected, mirroring the `None` initial fields of `EqualDiamondRouter`). -/
structure RouterState where
  switch1 : Option (List Addr)
  switch4 : Option (List Addr)
deriving DecidableEq, Repr

/-- Embeds `SmartSwitchController.has_learned`. -/
def hasLearned (learned : List Addr) (ip : Addr) : Bool :=
  decide (ip ∈ learned)

/-- The switch an address resolves to in `__route_should_be_established`:
switch 1 is tested first, so an address learned by both switches resolves
to 1; 0 means learned by neither. -/
def learnedBy (l1 l4 : List Addr) (ip : Addr) : Nat :=
  if hasLearned l1 ip then 1 else if hasLearned l4 ip then 4 else 0

/-- Embeds the body of `EqualDiamondRouter.__route_should_be_established`
once both switches are known to be online. -/
def routeCheckCore (l1 l4 : List Addr) (src dest : Addr) : Bool :=
  let srcBy := learnedBy l1 l4 src
  let destBy := learnedBy l1 l4 dest
  if srcBy = 0 ∨ destBy = 0 then false
  else if srcBy = destBy then false
  else true

/-- Embeds `EqualDiamondRouter.__route_should_be_established`: false when
either edge switch is offline, otherwise the resolution check above. -/
def route_should_be_established (st : RouterState) (src dest : Addr) : Bool :=
  match st.switch1, st.switch4 with
  | some l1, some l4 => routeCheckCore l1 l4 src dest
  | _, _ => false

/-- One IP-route flow-mod actually sent to a switch by
`SmartSwitchController.__add_route` (dpid, matched source IP, matched
destination IP, output port). -/
structure RouteMsg where
  dpid : Nat
  localIp : Addr
  otherIp : Addr
  port : Nat
deriving DecidableEq, Repr

/-- Embeds `SmartSwitchController.add_route`: exactly one of the two
addresses must be in this switch's learned set (asserted); the flow mod
matches traffic from the locally learned address to the other one.  An
assertion failure is an error. -/
def swAddRoute (learned : List Addr) (dpid : Nat) (src dest : Addr)
    (port : Nat) : Except Unit RouteMsg :=
  if hasLearned learned src then
    if hasLearned learned dest then Except.error ()
    else Except.ok ⟨dpid, src, dest, port⟩
  else
    if hasLearned learned dest then Except.ok ⟨dpid, dest, src, port⟩
    else Except.error ()

/-- Embeds `EqualDiamondRouter.add_route_up`: if the validity check passes,
install on switch 1 out port 1 and then on switch 4 out port 2 and return
true, else return false.  The first component lists the flow mods actually
sent (a rule already sent to switch 1 is not undone when the switch-4
assertion fires); the second is the call's outcome, with an assertion
failure as an error. -/
def add_route_up (st : RouterState) (src dest : Addr) :
    List RouteMsg × Except Unit Bool :=
  match st.switch1, st.switch4 with
  | some l1, some l4 =>
    if routeCheckCore l1 l4 src dest then
      match swAddRoute l1 1 src dest 1 with
      | Except.error _ => ([], Except.error ())
      | Except.ok m1 =>
        match swAddRoute l4 4 src dest 2 with
        | Except.error _ => ([m1], Except.error ())
        | Except.ok m2 => ([m1, m2], Except.ok true)
    else ([], Except.ok false)
  | _, _ => ([], Except.ok false)

/-- Embeds `EqualDiamondRouter.add_route_down`: the mirror of
`add_route_up` with the ports swapped (switch 1 out port 2, switch 4 out
port 1). -/
def add_route_down (st : RouterState) (src dest : Addr) :
    List RouteMsg × Except Unit Bool :=
  match st.switch1, st.switch4 with
  | some l1, some l4 =>
    if routeCheckCore l1 l4 src dest then
      match swAddRoute l1 1 src dest 2 with
      | Except.error _ => ([], Except.error ())
      | Except.ok m1 =>
        match swAddRoute l4 4 src dest 1 with
        | Except.error _ => ([m1], Except.error ())
        | Except.ok m2 => ([m1, m2], Except.ok true)
    else ([], Except.ok false)
  | _, _ => ([], Except.ok false)

/-- The claim's validity condition, stated from the spec's words: both edge
switches connected, each address learned by exactly one of the two edge
switches, and the two addresses learned by different edge switches. -/
def ClaimRouteCond (st : RouterState) (src dest : Addr) : Prop :=
  ∃ l1 l4, st.switch1 = some l1 ∧ st.switch4 = some l4 ∧
    ((src ∈ l1 ∧ src ∉ l4 ∧ dest ∈ l4 ∧ dest ∉ l1) ∨
     (src ∈ l4 ∧ src ∉ l1 ∧ dest ∈ l1 ∧ dest ∉ l4))

/-- The condition the code actually checks, in terms of raw memberships:
both switches connected, each address learned by at least one switch, and
the two addresses do not resolve to the same switch, where an address
learned by both switches resolves to switch 1. -/
def ResolvedRouteCond (st : RouterState) (src dest : Addr) : Prop :=
  ∃ l1 l4, st.switch1 = some l1 ∧ st.switch4 = some l4 ∧
    (src ∈ l1 ∨ src ∈ l4) ∧ (dest ∈ l1 ∨ dest ∈ l4) ∧
    ¬(src ∈ l1 ∧ dest ∈ l1) ∧
    ¬(src ∉ l1 ∧ src ∈ l4 ∧ dest ∉ l1 ∧ dest ∈ l4)

/-- C2 counterexample: with address 10 learned by both edge switches and
address 20 learned only by switch 4, the validity check passes even though
10 is not learned by exactly one switch, and the add call neither returns
false nor installs nothing: it installs the rule on switch 1 and then hits
the switch-4 assertion. -/
theorem C2_counterexample :
    route_should_be_established ⟨some [10], some [10, 20]⟩ 10 20 = true
  ∧ hasLearned [10] 10 = true
  ∧ hasLearned [10, 20] 10 = true
  ∧ add_route_up ⟨some [10], some [10, 20]⟩ 10 20 =
      ([⟨1, 10, 20, 1⟩], Except.error ()) := by
  refine ⟨by decide, by decide, by decide, rfl⟩

/-- C2 amended: the validity check is true exactly when both switches are
connected, each address is learned by at least one switch, and the two
addresses resolve to different switches (switch 1 taking precedence for an
address learned by both); and the add calls return true — installing on
both switches — exactly under the claim's original exactly-one-and-different
condition, because the learned-by-both states that pass the check are cut
short by the switch-4 assertion instead of returning.  When the check
fails, the adds return false and install nothing. -/
theorem C2_route_validity_amended (st : RouterState) (src dest : Addr) :
    (route_should_be_established st src dest = true ↔ ResolvedRouteCond st src dest)
  ∧ ((add_route_up st src dest).2 = Except.ok true ↔ ClaimRouteCond st src dest)
  ∧ ((add_route_down st src dest).2 = Except.ok true ↔ ClaimRouteCond st src dest)
  ∧ (route_should_be_established st src dest = false →
       add_route_up st src dest = ([], Except.ok false) ∧
       add_route_down st src dest = ([], Except.ok false)) := by
  rcases st with ⟨s1, s4⟩
  cases s1 with
  | none =>
    simp [route_should_be_established, add_route_up, add_route_down,
      ResolvedRouteCond, ClaimRouteCond]
  | some l1 =>
    cases s4 with
    | none =>
      simp [route_should_be_established, add_route_up, add_route_down,
        ResolvedRouteCond, ClaimRouteCond]
    | some l4 =>
      by_cases A : src ∈ l1 <;> by_cases B : src ∈ l4 <;>
        by_cases C : dest ∈ l1 <;> by_cases D : dest ∈ l4 <;>
        simp [route_should_be_established, routeCheckCore, learnedBy, hasLearned,
          add_route_up, add_route_down, swAddRoute, ResolvedRouteCond,
          ClaimRouteCond, A, B, C, D]

/-- Witness for C2's amended theorem at concrete inputs: with 10 learned
only by switch 1 and 20 learned only by switch 4 the up-add returns true,
and with nothing learned the check fails and the adds return false with no
installs. -/
theorem C2_route_validity_amended_witness :
    (add_route_up ⟨some [10], some [20]⟩ 10 20).2 = Except.ok true
  ∧ add_route_up ⟨some [], some []⟩ 10 20 = ([], Except.ok false) := by
  constructor
  · exact (C2_route_validity_amended ⟨some [10], some [20]⟩ 10 20).2.1.mpr
      ⟨[10], [20], rfl, rfl, Or.inl (by decide)⟩
  · exact ((C2_route_validity_amended ⟨some [], some []⟩ 10 20).2.2.2 (by decide)).1

/-! ### Smart switch learning (`SmartSwitchController`, claim C3)

The flow-mod messages built by the controller are modelled with the fields
the claims mention: priority, an optional matched destination or source
MAC, an optional matched input port, and the ordered action list. -/

/-- One output action of a flow mod: a physical port, the OFPP_FLOOD
pseudo-port, or the OFPP_CONTROLLER pseudo-port. -/
inductive OutAct
  | out (port : Nat)
  | flood
  | controller
deriving DecidableEq, Repr

/-- A flow-mod message as assembled by the controller helpers. -/
structure FlowMod where
  priority : Nat
  dl_dst : Option Nat := none
  dl_src : Option Nat := none
  in_port : Option Nat := none
  actions : List OutAct := []
deriving DecidableEq, Repr

/-- Priorities from `src/pox_ext/diamond/flow_table_priorities.py`. -/
def PRIORITY_SEND_FROM_MAC : Nat := 3

/-- Priority of the to-MAC forwarding rule. -/
def PRIORITY_SEND_TO_MAC : Nat := 255

/-- Embeds `SmartSwitchController.__send_for_mac_to_port_mod`. -/
def send_for_mac_to_port_mod (mac port : Nat) : FlowMod :=
  { priority := PRIORITY_SEND_TO_MAC, dl_dst := some mac,
    actions := [OutAct.out port] }

/-- Embeds `SmartSwitchController.__flood_and_forward_from_mac_mod`:
forward to port 1 and flood. -/
def flood_and_forward_from_mac_mod (mac : Nat) : FlowMod :=
  { priority := PRIORITY_SEND_FROM_MAC, dl_src := some mac,
    actions := [OutAct.out 1, OutAct.flood] }

/-- Embeds `SmartSwitchController.__flood_from_mac_mod`: flood only. -/
def flood_from_mac_mod (mac : Nat) : FlowMod :=
  { priority := PRIORITY_SEND_FROM_MAC, dl_src := some mac,
    actions := [OutAct.flood] }

/-- Learning state of one smart switch: the MAC-to-port dict and the
learned-IP set, both in insertion order. -/
structure SwState where
  macToPort : List (Nat × Nat)
  learnedIps : List Addr
deriving DecidableEq, Repr

/-- Embeds `SmartSwitchController.__learn_port_route`: a known MAC is a
no-op; otherwise the port is canonicalized (2 becomes 1), the mapping is
recorded, and the to-MAC rule plus the port-dependent from-MAC rule are
sent. -/
def learn_port_route (st : SwState) (port mac : Nat) : SwState × List FlowMod :=
  if mac ∈ st.macToPort.map Prod.fst then (st, [])
  else
    let canonPort := if port = 2 then 1 else port
    ({ st with macToPort := st.macToPort ++ [(mac, canonPort)] },
     [send_for_mac_to_port_mod mac canonPort,
      if canonPort = 1 then flood_from_mac_mod mac
      else flood_and_forward_from_mac_mod mac])

/-- A packet-in notification as `SmartSwitchController.__packetIn` reads
it: arrival port, whether the frame parsed completely, and the optional
Ethernet and IPv4 source addresses found in it. -/
structure PacketInEvent where
  port : Nat
  parsedOk : Bool
  ethSrc : Option Nat
  ipSrc : Option Addr
deriving DecidableEq, Repr

/-- Embeds `SmartSwitchController.__packetIn`: incomplete packets are
ignored; learning happens only when both an Ethernet and an IPv4 header are
present, and the IP address is recorded only for local ports (port > 2). -/
def packetIn (st : SwState) (ev : PacketInEvent) : SwState × List FlowMod :=
  if !ev.parsedOk then (st, [])
  else
    match ev.ethSrc, ev.ipSrc with
    | some mac, some ip =>
      let r := learn_port_route st ev.port mac
      let st2 :=
        if 2 < ev.port then
          { r.1 with learnedIps :=
              if ip ∈ r.1.learnedIps then r.1.learnedIps
              else r.1.learnedIps ++ [ip] }
        else r.1
      (st2, r.2)
    | _, _ => (st, [])

/-- C3 counterexample: for an unseen MAC arriving on the uplink (port 1)
the installed from-MAC rule floods only — it has no exit-uplink action —
while for an unseen MAC on local port 5 the from-MAC rule exits port 1 and
floods; the claim assigns the two behaviours the other way around. -/
theorem C3_counterexample :
    (learn_port_route ⟨[], []⟩ 1 7).2 =
      [send_for_mac_to_port_mod 7 1, flood_from_mac_mod 7]
  ∧ (flood_from_mac_mod 7).actions = [OutAct.flood]
  ∧ OutAct.out 1 ∉ (flood_from_mac_mod 7).actions
  ∧ (learn_port_route ⟨[], []⟩ 5 7).2 =
      [send_for_mac_to_port_mod 7 5, flood_and_forward_from_mac_mod 7]
  ∧ (flood_and_forward_from_mac_mod 7).actions = [OutAct.out 1, OutAct.flood] := by
  decide

/-- C3 amended: on a packet-in that parses and carries both Ethernet and
IPv4 headers, with an unseen source MAC, the switch records the MAC
against the canonical outbound port (port 2 is recorded as port 1) and
installs two rules: traffic destined to the MAC goes out the recorded
port, and the from-MAC rule floods locally only when the recorded port is
the uplink (port 1), and floods locally and exits the uplink when the
recorded port is a local port. -/
theorem C3_learning_rules_amended (st : SwState) (ev : PacketInEvent)
    (mac : Nat) (ip : Addr) (hp : ev.parsedOk = true) (he : ev.ethSrc = some mac)
    (hi : ev.ipSrc = some ip) (hm : mac ∉ st.macToPort.map Prod.fst) :
    (packetIn st ev).2 =
      [send_for_mac_to_port_mod mac (if ev.port = 2 then 1 else ev.port),
       if (if ev.port = 2 then 1 else ev.port) = 1 then flood_from_mac_mod mac
       else flood_and_forward_from_mac_mod mac]
  ∧ (packetIn st ev).1.macToPort =
      st.macToPort ++ [(mac, if ev.port = 2 then 1 else ev.port)]
  ∧ (send_for_mac_to_port_mod mac (if ev.port = 2 then 1 else ev.port)).actions =
      [OutAct.out (if ev.port = 2 then 1 else ev.port)]
  ∧ (flood_from_mac_mod mac).actions = [OutAct.flood]
  ∧ (flood_and_forward_from_mac_mod mac).actions = [OutAct.out 1, OutAct.flood] := by
  have hlearn : learn_port_route st ev.port mac =
      ({ st with macToPort :=
           st.macToPort ++ [(mac, if ev.port = 2 then 1 else ev.port)] },
       [send_for_mac_to_port_mod mac (if ev.port = 2 then 1 else ev.port),
        if (if ev.port = 2 then 1 else ev.port) = 1 then flood_from_mac_mod mac
        else flood_and_forward_from_mac_mod mac]) := by
    simp [learn_port_route, hm]
  refine ⟨?_, ?_, by simp [send_for_mac_to_port_mod], rfl, rfl⟩ <;>
    by_cases hloc : 2 < ev.port <;>
    simp [packetIn, hp, he, hi, hlearn, hloc]

/-- Witness for C3's amended theorem: a first packet-in on local port 3
with MAC 7 and IP 9 installs the to-MAC rule for port 3 and the
flood-and-exit-uplink from-MAC rule. -/
theorem C3_learning_rules_amended_witness :
    (packetIn ⟨[], []⟩ ⟨3, true, some 7, some 9⟩).2 =
      [send_for_mac_to_port_mod 7 (if (3 : Nat) = 2 then 1 else 3),
       if (if (3 : Nat) = 2 then 1 else 3) = 1 then flood_from_mac_mod 7
       else flood_and_forward_from_mac_mod 7] :=
  (C3_learning_rules_amended ⟨[], []⟩ ⟨3, true, some 7, some 9⟩ 7 9
    rfl rfl rfl (by decide)).1

/-! ### Connection multiplexer (`src/sockets_lib/connection.py`)

A `ConnectionIf` instance is modelled by its four mutable fields: the
`__closed` and `__was_closed` flags, the outbound FIFO queue `__pub_queue`,
and the in-flight message `__buffer`.  The abstract transport
(`_read`/`_write`) is supplied per poll quantum as finite lists of
prescribed outcomes; a `ConnectionIsClosedError` raised by the transport is
the `closedErr` outcome.  Calls past the end of a list behave as
unsuccessful non-raising attempts, which also bounds the read loop. -/

/-- A message payload (a byte string). -/
abbrev Data := List Nat

/-- Outcome of one transport call: a normal return or a raised
`ConnectionIsClosedError`. -/
inductive IORes (α : Type)
  | ok (a : α)
  | closedErr
deriving DecidableEq, Repr

/-- Mutable state of a `ConnectionIf` instance. -/
structure ConnState where
  closed : Bool
  was_closed : Bool
  queue : List Data
  buffer : Option Data
deriving DecidableEq, Repr

/-- State set up by `ConnectionIf.__init__`. -/
def initConn : ConnState := ⟨false, false, [], none⟩

/-- Transport behaviour during one poll quantum: the value `_is_open()`
would return if called, the successive `_read()` outcomes (each a success
flag and the data read), and the successive `_write()` outcomes. -/
structure Quantum where
  isOpenVal : Bool
  reads : List (IORes (Bool × Data))
  writes : List (IORes Bool)
deriving DecidableEq, Repr

/-- Truthiness of the expression `self._is_open` in the poll guard: the
source omits the call parentheses, so the guard tests the bound-method
object itself, which is always truthy in Python; the transport's actual
open state is never consulted. -/
def isOpenMethodTruthy : Bool := true

/-- The read loop of `poll`: repeat `_read()`, keeping each successful
non-empty result and counting it against `max_reads` (checked after the
append), stopping at the first unsuccessful or empty read.  Returns the
data read in order and whether a `ConnectionIsClosedError` was raised. -/
def readLoop (maxReads : Option Nat) :
    List (IORes (Bool × Data)) → Nat → List Data → List Data × Bool
  | [], _, acc => (acc, false)
  | IORes.closedErr :: _, _, acc => (acc, true)
  | IORes.ok (s, data) :: rest, reads, acc =>
    if s && !data.isEmpty then
      match maxReads with
      | some n =>
        if n ≤ reads + 1 then (acc ++ [data], false)
        else readLoop maxReads rest (reads + 1) (acc ++ [data])
      | none => readLoop maxReads rest (reads + 1) (acc ++ [data])
    else (acc, false)

/-- The publish loop of `poll`: up to `publishes` calls of
`_write(self.__buffer)`; a successful write pops the next queued message
into the buffer, a failed write stops the loop, a raise aborts it.
Returns the buffer contents written in order, the final buffer and queue,
and whether a `ConnectionIsClosedError` was raised. -/
def writeLoop : Nat → Option Data → List Data → List (IORes Bool) →
    List (Option Data) × Option Data × List Data × Bool
  | 0, buf, qu, _ => ([], buf, qu, false)
  | _ + 1, buf, qu, [] => ([], buf, qu, false)
  | _ + 1, buf, qu, IORes.closedErr :: _ => ([], buf, qu, true)
  | _ + 1, buf, qu, IORes.ok false :: _ => ([], buf, qu, false)
  | p + 1, buf, qu, IORes.ok true :: rest =>
    match qu with
    | [] =>
      let r := writeLoop p none [] rest
      (buf :: r.1, r.2)
    | m :: q' =>
      let r := writeLoop p (some m) q' rest
      (buf :: r.1, r.2)

/-- Result of one `poll()` call: the post state, the data handed to the
receive callback in order, the buffers handed to `_write` successfully,
and whether the closed callback fired this quantum
(`__did_just_close`). -/
structure PollOut where
  st : ConnState
  received : List Data
  written : List (Option Data)
  fired : Bool
deriving DecidableEq, Repr

/-- Embeds the buffer refill
`if self.__buffer is None and not self.__pub_queue.empty():
self.__buffer = self.__pub_queue.get()`, returning the new buffer and
queue. -/
def refillBuffer (buf : Option Data) (qu : List Data) :
    Option Data × List Data :=
  match buf, qu with
  | none, m :: q' => (some m, q')
  | b, rest => (b, rest)

/-- Embeds the message count
`self.__pub_queue.qsize() + 1 if self.__buffer is not None else 0`. -/
def messageCount (buf : Option Data) (qulen : Nat) : Nat :=
  match buf with
  | some _ => qulen + 1
  | none => 0

/-- Embeds
`publishes = messages if self.__writes is None else min(messages, self.__writes)`. -/
def publishCount (maxWrites : Option Nat) (messages : Nat) : Nat :=
  match maxWrites with
  | none => messages
  | some mw => min messages mw

/-- The I/O phase of `ConnectionIf.poll` (the body of the
`if not self.__closed:` block together with the surrounding exception
handler): the read loop runs, the buffer is refilled from the queue, and
the publish loop runs `min(messages, max_writes)` times.  A raise anywhere
marks the connection closed and discards the outbound queue (the queue
replacement happens after the try block, but only the closed path reaches
it, so it is folded into the raise cases here).  Collected reads are
delivered afterwards in order — also when a raise cut the loop short. -/
def pollIoPhase (maxReads maxWrites : Option Nat) (st0 : ConnState) (q : Quantum) :
    PollOut :=
  match readLoop maxReads q.reads 0 [] with
  | (dataRead, true) =>
    ⟨{ st0 with closed := true, was_closed := true, queue := [] },
     dataRead, [], true⟩
  | (dataRead, false) =>
    let fill := refillBuffer st0.buffer st0.queue
    let publishes := publishCount maxWrites (messageCount fill.1 fill.2.length)
    match writeLoop publishes fill.1 fill.2 q.writes with
    | (written, buf2, _, true) =>
      ⟨⟨true, true, [], buf2⟩, dataRead, written, true⟩
    | (written, buf2, qu2, false) =>
      ⟨{ st0 with queue := qu2, buffer := buf2 }, dataRead, written, false⟩

/-- Embeds `ConnectionIf.poll`.  The initial guard reads
`not self.__was_closed and (self.__closed or not self._is_open)`; since
`self._is_open` is a truthy bound-method object, the parenthesized
disjunct is just `self.__closed` (see `isOpenMethodTruthy`).  When the
connection is closed no I/O happens; otherwise the I/O phase runs.  When
the connection closed this quantum the outbound queue is replaced by a
fresh empty one before the closed callback is invoked. -/
def poll (maxReads maxWrites : Option Nat) (st : ConnState) (q : Quantum) :
    PollOut :=
  let guard := !st.was_closed && (st.closed || !isOpenMethodTruthy)
  let st0 : ConnState :=
    if guard then { st with closed := true, was_closed := true } else st
  if st0.closed then
    if guard then ⟨{ st0 with queue := [] }, [], [], true⟩
    else ⟨st0, [], [], false⟩
  else
    pollIoPhase maxReads maxWrites st0 q

/-- Embeds `ConnectionIf.close`: sets the closed flag (and shuts the
transport down, which has no observable effect on this state) when not
already closed. -/
def closeConn (st : ConnState) : ConnState :=
  if !st.closed then { st with closed := true } else st

/-- Embeds `ConnectionIf.send`: raises `ConnectionIsClosedError` when the
closed flag is set, otherwise appends the payload to the outbound queue.
No transport call is made. -/
def send (st : ConnState) (d : Data) : Except Unit ConnState :=
  if st.closed then Except.error () else Except.ok { st with queue := st.queue ++ [d] }

/-- One public operation on a connection instance. -/
inductive ConnOp
  | close
  | send (d : Data)
  | poll (q : Quantum)
deriving DecidableEq, Repr

/-- Record of one executed operation: the states around it, whether the
closed callback fired, the buffers written, and the payload enqueued if
the operation was an accepted send. -/
structure StepInfo where
  pre : ConnState
  op : ConnOp
  post : ConnState
  fired : Bool
  written : List (Option Data)
  sentOk : Option Data
deriving DecidableEq, Repr

/-- Executes one operation (a send that raises leaves the state
unchanged). -/
def connStep (maxReads maxWrites : Option Nat) (st : ConnState) :
    ConnOp → StepInfo
  | ConnOp.close => ⟨st, ConnOp.close, closeConn st, false, [], none⟩
  | ConnOp.send d =>
    match send st d with
    | Except.ok st' => ⟨st, ConnOp.send d, st', false, [], some d⟩
    | Except.error _ => ⟨st, ConnOp.send d, st, false, [], none⟩
  | ConnOp.poll q =>
    let r := poll maxReads maxWrites st q
    ⟨st, ConnOp.poll q, r.st, r.fired, r.written, none⟩

/-- The step records of a whole operation sequence. -/
def connTrace (maxReads maxWrites : Option Nat) :
    ConnState → List ConnOp → List StepInfo
  | _, [] => []
  | st, op :: rest =>
    let s := connStep maxReads maxWrites st op
    s :: connTrace maxReads maxWrites s.post rest

/-- The state after a whole operation sequence. -/
def connRun (maxReads maxWrites : Option Nat) (st : ConnState)
    (ops : List ConnOp) : ConnState :=
  ops.foldl (fun s op => (connStep maxReads maxWrites s op).post) st

/-! ### Send semantics (claim C9) -/

/-- C9: send raises the closed error exactly when the closed flag is
already set (by an earlier close call or by closure detected during an
earlier poll); otherwise it only appends the payload to the outbound
queue — no transport write happens (send makes no transport call at all)
and every other field is unchanged. -/
theorem C9_send_closed_error (st : ConnState) (d : Data) :
    (send st d = Except.error () ↔ st.closed = true)
  ∧ (st.closed = false →
       send st d = Except.ok { st with queue := st.queue ++ [d] }) := by
  unfold send
  cases h : st.closed <;> simp [h]

/-- Witness for C9: a send on a fresh connection is accepted and only
extends the queue. -/
theorem C9_send_closed_error_witness :
    send initConn [1, 2] = Except.ok { initConn with queue := [[1, 2]] } := by
  simpa using (C9_send_closed_error initConn [1, 2]).2 rfl

/-! ### Closure detection in poll (claim C10) -/

/-- Whether a prescribed transport outcome list contains a raise. -/
def hasClosedErr {α : Type} : List (IORes α) → Bool
  | [] => false
  | IORes.closedErr :: _ => true
  | IORes.ok _ :: rest => hasClosedErr rest

theorem readLoop_raised_hasErr (maxReads : Option Nat) :
    ∀ (rs : List (IORes (Bool × Data))) (reads : Nat) (acc : List Data),
      (readLoop maxReads rs reads acc).2 = true → hasClosedErr rs = true := by
  intro rs
  induction rs with
  | nil => intro reads acc h; simp [readLoop] at h
  | cons r rest ih =>
    intro reads acc h
    cases r with
    | closedErr => rfl
    | ok a =>
      rcases a with ⟨s, data⟩
      simp only [readLoop] at h
      by_cases hc : (s && !data.isEmpty) = true
      · simp only [hc, if_pos] at h
        show hasClosedErr rest = true
        cases maxReads with
        | none => exact ih _ _ h
        | some n =>
          by_cases hn : n ≤ reads + 1
          · simp [hn] at h
          · simp only [hn, if_neg, not_false_iff] at h
            exact ih _ _ h
      · simp [hc] at h

theorem writeLoop_raised_hasErr :
    ∀ (p : Nat) (buf : Option Data) (qu : List Data) (ws : List (IORes Bool)),
      (writeLoop p buf qu ws).2.2.2 = true → hasClosedErr ws = true := by
  intro p
  induction p with
  | zero => intro buf qu ws h; simp [writeLoop] at h
  | succ p ih =>
    intro buf qu ws h
    match ws with
    | [] => simp [writeLoop] at h
    | IORes.closedErr :: rest => rfl
    | IORes.ok false :: rest => simp [writeLoop] at h
    | IORes.ok true :: rest =>
      show hasClosedErr rest = true
      match qu with
      | [] => exact ih none [] rest (by simpa [writeLoop] using h)
      | m :: q' => exact ih (some m) q' rest (by simpa [writeLoop] using h)

/-- C10: the poll guard tests the truthiness of the method object
`self._is_open` rather than its return value, so the transport's open
state is never consulted: the poll result is independent of it, a poll
marks the connection newly closed only when the closed flag was already
set or a transport call raised this quantum, and absent both the
connection stays undetected as closed. -/
theorem C10_is_open_never_consulted (maxReads maxWrites : Option Nat)
    (st : ConnState) (q : Quantum) (b : Bool) :
    (poll maxReads maxWrites st { q with isOpenVal := b } =
       poll maxReads maxWrites st q)
  ∧ ((poll maxReads maxWrites st q).fired = true →
       st.closed = true ∨ hasClosedErr q.reads = true ∨
         hasClosedErr q.writes = true)
  ∧ (st.closed = false → hasClosedErr q.reads = false →
     hasClosedErr q.writes = false →
       (poll maxReads maxWrites st q).fired = false ∧
       (poll maxReads maxWrites st q).st.closed = false) := by
  refine ⟨?_, ?_, ?_⟩
  · rcases q with ⟨bv, rs, ws⟩
    rfl
  · intro hf
    by_cases hc : st.closed = true
    · exact Or.inl hc
    · simp only [Bool.not_eq_true] at hc
      right
      unfold poll at hf
      simp only [hc, isOpenMethodTruthy, Bool.not_true, Bool.or_false,
        Bool.and_false, Bool.false_eq_true, if_false, ite_false] at hf
      rw [pollIoPhase] at hf
      simp only [] at hf
      split at hf
      · rename_i dataRead heq
        exact Or.inl (readLoop_raised_hasErr maxReads q.reads 0 [] (by rw [heq]))
      · rename_i dataRead heq
        split at hf
        · rename_i written buf2 qu2 heq2
          exact Or.inr (writeLoop_raised_hasErr _ _ _ q.writes (by rw [heq2]))
        · simp at hf
  · intro hc hr hw
    unfold poll
    simp only [hc, isOpenMethodTruthy, Bool.not_true, Bool.or_false,
      Bool.and_false, Bool.false_eq_true, if_false, ite_false]
    rw [pollIoPhase]
    simp only []
    split
    · rename_i dataRead heq
      have := readLoop_raised_hasErr maxReads q.reads 0 [] (by rw [heq])
      rw [this] at hr
      cases hr
    · rename_i dataRead heq
      split
      · rename_i written buf2 qu2 heq2
        have := writeLoop_raised_hasErr _ _ _ q.writes (by rw [heq2])
        rw [this] at hw
        cases hw
      · exact ⟨rfl, hc⟩

/-- Witness for C10: on a fresh connection a poll whose quantum reports the
transport as closed but neither raises nor has the flag set detects
nothing. -/
theorem C10_is_open_never_consulted_witness :
    (poll none none initConn ⟨false, [], []⟩).fired = false ∧
    (poll none none initConn ⟨false, [], []⟩).st.closed = false :=
  (C10_is_open_never_consulted none none initConn ⟨false, [], []⟩ true).2.2
    rfl rfl rfl

/-! ### Close-exactly-once (claim C7) -/

theorem connStep_pre (maxR maxW : Option Nat) (st : ConnState) (op : ConnOp) :
    (connStep maxR maxW st op).pre = st := by
  cases op with
  | close => rfl
  | send d => simp only [connStep]; split <;> rfl
  | poll q => rfl

theorem connStep_op (maxR maxW : Option Nat) (st : ConnState) (op : ConnOp) :
    (connStep maxR maxW st op).op = op := by
  cases op with
  | close => rfl
  | send d => simp only [connStep]; split <;> rfl
  | poll q => rfl

/-- Case form of `poll`: with the four flag combinations separated, the
guard and the initial closed test collapse to the four outcomes below. -/
theorem poll_eq (maxR maxW : Option Nat) (st : ConnState) (q : Quantum) :
    poll maxR maxW st q =
      if st.was_closed = true then
        (if st.closed = true then ⟨st, [], [], false⟩
         else pollIoPhase maxR maxW st q)
      else if st.closed = true then
        ⟨⟨true, true, [], st.buffer⟩, [], [], true⟩
      else pollIoPhase maxR maxW st q := by
  rw [poll]
  cases hw : st.was_closed <;> cases hc : st.closed <;>
    simp [hw, hc, isOpenMethodTruthy]

/-- The two possible flag outcomes of the I/O phase: either it detected
closure (a raise), setting all flags and clearing the queue, or it left
the flags untouched. -/
theorem pollIoPhase_post (maxR maxW : Option Nat) (st0 : ConnState) (q : Quantum) :
    ((pollIoPhase maxR maxW st0 q).fired = true ∧
     (pollIoPhase maxR maxW st0 q).st.closed = true ∧
     (pollIoPhase maxR maxW st0 q).st.was_closed = true ∧
     (pollIoPhase maxR maxW st0 q).st.queue = []) ∨
    ((pollIoPhase maxR maxW st0 q).fired = false ∧
     (pollIoPhase maxR maxW st0 q).st.closed = st0.closed ∧
     (pollIoPhase maxR maxW st0 q).st.was_closed = st0.was_closed) := by
  rw [pollIoPhase]
  simp only []
  split
  · exact Or.inl ⟨rfl, rfl, rfl, rfl⟩
  · split
    · exact Or.inl ⟨rfl, rfl, rfl, rfl⟩
    · exact Or.inr ⟨rfl, rfl, rfl⟩

/-- Flag behaviour of a single operation, under the invariant that
`__was_closed` is only ever set together with `__closed`:
(1) a fired closed callback means the connection had not been observed
closed before, is marked observed afterwards, and the queue was discarded;
(2) the observed flag is monotone; (3) the invariant is preserved;
(4) a poll on a closed, not-yet-observed connection fires. -/
theorem connStep_send_post (maxR maxW : Option Nat) (st : ConnState)
    (d : Data) :
    (connStep maxR maxW st (ConnOp.send d)).post =
      (if st.closed then st else { st with queue := st.queue ++ [d] }) := by
  simp only [connStep, send]
  cases hc : st.closed <;> simp [hc]

theorem connStep_send_fired (maxR maxW : Option Nat) (st : ConnState)
    (d : Data) :
    (connStep maxR maxW st (ConnOp.send d)).fired = false := by
  simp only [connStep]
  split <;> rfl

/-- Flag behaviour of a single operation, under the invariant that
`__was_closed` is only ever set together with `__closed`:
(1) a fired closed callback means the connection had not been observed
closed before, is marked observed afterwards, and the queue was discarded;
(2) the observed flag is monotone; (3) the invariant is preserved;
(4) a poll on a closed, not-yet-observed connection fires. -/
theorem connStep_flag_facts (maxR maxW : Option Nat) (st : ConnState)
    (op : ConnOp) (hinv : st.was_closed = true → st.closed = true) :
    ((connStep maxR maxW st op).fired = true →
       st.was_closed = false ∧
       (connStep maxR maxW st op).post.was_closed = true ∧
       (connStep maxR maxW st op).post.queue = [])
  ∧ (st.was_closed = true →
       (connStep maxR maxW st op).post.was_closed = true)
  ∧ ((connStep maxR maxW st op).post.was_closed = true →
       (connStep maxR maxW st op).post.closed = true)
  ∧ (∀ q2, op = ConnOp.poll q2 → st.closed = true → st.was_closed = false →
       (connStep maxR maxW st op).fired = true) := by
  cases op with
  | close =>
    have hpost : (connStep maxR maxW st ConnOp.close).post = closeConn st := rfl
    refine ⟨?_, ?_, ?_, ?_⟩
    · intro h
      cases h
    · intro hw
      rw [hpost]
      unfold closeConn
      by_cases hcl : st.closed = true <;> simp [hcl] <;> exact hw
    · intro hw
      rw [hpost] at hw ⊢
      unfold closeConn at hw ⊢
      by_cases hcl : st.closed = true <;> simp [hcl] at hw ⊢
    · intro q2 h
      cases h
  | send d =>
    have hw' : (connStep maxR maxW st (ConnOp.send d)).post.was_closed =
        st.was_closed := by
      rw [connStep_send_post]; split <;> rfl
    have hc' : (connStep maxR maxW st (ConnOp.send d)).post.closed =
        st.closed := by
      rw [connStep_send_post]; split <;> rfl
    refine ⟨fun h => ?_, fun h => by rw [hw']; exact h,
      fun h => by rw [hc']; rw [hw'] at h; exact hinv h,
      fun q2 h => by cases h⟩
    rw [connStep_send_fired] at h
    cases h
  | poll q =>
    simp only [connStep]
    rw [poll_eq]
    cases hw : st.was_closed <;> cases hc : st.closed <;>
      simp only [Bool.true_eq_false, Bool.false_eq_true, if_true, if_false,
        ite_true, ite_false]
    · -- not observed, not closed: the I/O phase runs
      rcases pollIoPhase_post maxR maxW st q with ⟨h1, h2, h3, h4⟩ | ⟨h1, h2, h3⟩
      · refine ⟨fun _ => ⟨by trivial, h3, h4⟩, fun h => h.elim, fun _ => h2,
          fun q2 _ h _ => h.elim⟩
      · refine ⟨fun h => ?_, fun h => h.elim, fun h => ?_,
          fun q2 _ h _ => h.elim⟩
        · rw [h1] at h; cases h
        · rw [h3, hw] at h; cases h
    · -- not observed, closed: the guard fires
      exact ⟨fun _ => ⟨by trivial, by trivial, by trivial⟩, fun h => h.elim,
        fun _ => by trivial, fun q2 _ _ _ => by trivial⟩
    · -- observed without closed contradicts the invariant
      exact absurd (hinv hw) (by rw [hc]; decide)
    · -- observed and closed: nothing happens
      exact ⟨fun h => h.elim, fun _ => hw, fun _ => hc,
        fun q2 _ _ h => h.elim⟩

theorem connTrace_no_fire_after (maxR maxW : Option Nat) :
    ∀ (ops : List ConnOp) (st : ConnState),
      (st.was_closed = true → st.closed = true) → st.was_closed = true →
      ∀ e ∈ connTrace maxR maxW st ops, e.fired = false := by
  intro ops
  induction ops with
  | nil => intro st _ _ e he; simp [connTrace] at he
  | cons op rest ih =>
    intro st hinv hw e he
    simp only [connTrace, List.mem_cons] at he
    rcases he with rfl | he
    · cases hf : (connStep maxR maxW st op).fired
      · rfl
      · have := ((connStep_flag_facts maxR maxW st op hinv).1 hf).1
        rw [hw] at this
        cases this
    · exact ih (connStep maxR maxW st op).post
        (connStep_flag_facts maxR maxW st op hinv).2.2.1
        ((connStep_flag_facts maxR maxW st op hinv).2.1 hw) e he

theorem connTrace_fire_count (maxR maxW : Option Nat) :
    ∀ (ops : List ConnOp) (st : ConnState),
      (st.was_closed = true → st.closed = true) →
      ((connTrace maxR maxW st ops).filter (fun e => e.fired)).length ≤ 1 := by
  intro ops
  induction ops with
  | nil => intro st _; simp [connTrace]
  | cons op rest ih =>
    intro st hinv
    simp only [connTrace, List.filter_cons]
    cases hf : (connStep maxR maxW st op).fired
    · simp only [Bool.false_eq_true, if_false, ite_false]
      exact ih (connStep maxR maxW st op).post
        (connStep_flag_facts maxR maxW st op hinv).2.2.1
    · simp only [if_true, ite_true]
      have hrest : (connTrace maxR maxW (connStep maxR maxW st op).post
          rest).filter (fun e => e.fired) = [] := by
        rw [List.filter_eq_nil_iff]
        intro e he
        have := connTrace_no_fire_after maxR maxW rest
          (connStep maxR maxW st op).post
          (connStep_flag_facts maxR maxW st op hinv).2.2.1
          ((connStep_flag_facts maxR maxW st op hinv).1 hf).2.1 e he
        simp [this]
      rw [hrest]
      simp

theorem connTrace_fired_props (maxR maxW : Option Nat) :
    ∀ (ops : List ConnOp) (st : ConnState),
      (st.was_closed = true → st.closed = true) →
      ∀ e ∈ connTrace maxR maxW st ops, e.fired = true →
        e.pre.was_closed = false ∧ e.post.was_closed = true ∧
          e.post.queue = [] := by
  intro ops
  induction ops with
  | nil => intro st _ e he; simp [connTrace] at he
  | cons op rest ih =>
    intro st hinv e he hf
    simp only [connTrace, List.mem_cons] at he
    rcases he with rfl | he
    · have h := (connStep_flag_facts maxR maxW st op hinv).1 hf
      rw [connStep_pre]
      exact h
    · exact ih (connStep maxR maxW st op).post
        (connStep_flag_facts maxR maxW st op hinv).2.2.1 e he hf

theorem connTrace_closed_poll_fires (maxR maxW : Option Nat) :
    ∀ (ops : List ConnOp) (st : ConnState),
      (st.was_closed = true → st.closed = true) →
      ∀ e ∈ connTrace maxR maxW st ops, (∃ q2, e.op = ConnOp.poll q2) →
        e.pre.closed = true → e.fired = true ∨ e.pre.was_closed = true := by
  intro ops
  induction ops with
  | nil => intro st _ e he; simp [connTrace] at he
  | cons op rest ih =>
    intro st hinv e he hop hc
    simp only [connTrace, List.mem_cons] at he
    rcases he with rfl | he
    · rcases hop with ⟨q2, hq2⟩
      rw [connStep_op] at hq2
      rw [connStep_pre] at hc
      cases hw : st.was_closed
      · exact Or.inl ((connStep_flag_facts maxR maxW st op hinv).2.2.2 q2
          hq2 hc hw)
      · rw [connStep_pre]
        exact Or.inr hw
    · exact ih (connStep maxR maxW st op).post
        (connStep_flag_facts maxR maxW st op hinv).2.2.1 e he hop hc

/-- C7: over any operation sequence on one connection instance, the closed
callback fires during at most one step; a step that fires is the first to
observe the closed state (the observed flag was still clear and is set
afterwards) and has discarded the queued outbound messages by the time the
callback runs; and a poll that finds the closed flag set either fires or
the callback has already fired in an earlier poll. -/
theorem C7_close_callback_exactly_once (maxR maxW : Option Nat)
    (ops : List ConnOp) :
    (((connTrace maxR maxW initConn ops).filter (fun e => e.fired)).length ≤ 1)
  ∧ (∀ e ∈ connTrace maxR maxW initConn ops, e.fired = true →
       e.pre.was_closed = false ∧ e.post.was_closed = true ∧
         e.post.queue = [])
  ∧ (∀ e ∈ connTrace maxR maxW initConn ops,
       (∃ q2, e.op = ConnOp.poll q2) → e.pre.closed = true →
         e.fired = true ∨ e.pre.was_closed = true) :=
  ⟨connTrace_fire_count maxR maxW ops initConn (fun h => by cases h),
   connTrace_fired_props maxR maxW ops initConn (fun h => by cases h),
   connTrace_closed_poll_fires maxR maxW ops initConn (fun h => by cases h)⟩

/-- Witness for C7 on a concrete run: close, then two polls.  The callback
fires exactly in the first poll, whose step record is the middle trace
element; its post state has the queue discarded. -/
theorem C7_close_callback_exactly_once_witness :
    ((connTrace none none initConn
        [ConnOp.close, ConnOp.poll ⟨true, [], []⟩,
         ConnOp.poll ⟨true, [], []⟩]).filter (fun e => e.fired)).length ≤ 1
  ∧ (⟨⟨true, false, [], none⟩, ConnOp.poll ⟨true, [], []⟩,
       ⟨true, true, [], none⟩, true, [], none⟩ : StepInfo).post.queue = [] := by
  refine ⟨(C7_close_callback_exactly_once none none _).1, ?_⟩
  exact ((C7_close_callback_exactly_once none none
      [ConnOp.close, ConnOp.poll ⟨true, [], []⟩,
       ConnOp.poll ⟨true, [], []⟩]).2.1 _ (by decide) rfl).2.2

/-! ### FIFO write prefix (claim C8) -/

/-- The list a Python optional contributes when flattened. -/
def optToList : Option Data → List Data
  | none => []
  | some d => [d]

/-- All buffers successfully written across a trace, in order. -/
def writtenAll (tr : List StepInfo) : List (Option Data) :=
  tr.foldr (fun e acc => e.written ++ acc) []

/-- All payloads accepted by send across a trace, in order. -/
def sentAll (tr : List StepInfo) : List Data :=
  tr.foldr (fun e acc => optToList e.sentOk ++ acc) []

theorem refillBuffer_flush (buf : Option Data) (qu : List Data) :
    optToList (refillBuffer buf qu).1 ++ (refillBuffer buf qu).2 =
      optToList buf ++ qu := by
  cases buf <;> cases qu <;> rfl

theorem publishCount_le (maxW : Option Nat) (messages : Nat) :
    publishCount maxW messages ≤ messages := by
  cases maxW with
  | none => exact Nat.le_refl _
  | some mw => exact Nat.min_le_left _ _

/-- The publish loop writes whole queued messages in order: when the
iteration budget does not exceed the number of pending messages, the
written list is a prefix of the pending sequence, and what was pending
splits into what was written followed by what is still pending. -/
theorem writeLoop_fifo :
    ∀ (p : Nat) (buf : Option Data) (qu : List Data) (ws : List (IORes Bool)),
      p ≤ messageCount buf qu.length →
      ∃ w : List Data,
        (writeLoop p buf qu ws).1 = w.map some ∧
        optToList buf ++ qu =
          w ++ optToList (writeLoop p buf qu ws).2.1 ++
            (writeLoop p buf qu ws).2.2.1 := by
  intro p
  induction p with
  | zero => intro buf qu ws hp; exact ⟨[], rfl, rfl⟩
  | succ p ih =>
    intro buf qu ws hp
    cases buf with
    | none => simp [messageCount] at hp
    | some b =>
      match ws with
      | [] => exact ⟨[], rfl, rfl⟩
      | IORes.closedErr :: rest => exact ⟨[], rfl, rfl⟩
      | IORes.ok false :: rest => exact ⟨[], rfl, rfl⟩
      | IORes.ok true :: rest =>
        cases qu with
        | nil =>
          have hp0 : p = 0 := by
            simp [messageCount] at hp
            omega
          subst hp0
          refine ⟨[b], ?_, ?_⟩ <;> simp [writeLoop, optToList]
        | cons m q' =>
          obtain ⟨w', h1, h2⟩ := ih (some m) q' rest
            (by simp [messageCount] at hp ⊢; omega)
          refine ⟨b :: w', ?_, ?_⟩
          · simp only [writeLoop, List.map_cons]
            rw [h1]
          · simp only [writeLoop, optToList, List.cons_append, List.nil_append,
              List.append_assoc] at h2 ⊢
            rw [h2]

/-- What the I/O phase writes is a whole-message prefix of what was
pending, and when no raise occurred the remainder is exactly what is still
pending afterwards. -/
theorem pollIoPhase_written (maxR maxW : Option Nat) (st0 : ConnState)
    (q : Quantum) :
    ∃ w rest, (pollIoPhase maxR maxW st0 q).written = w.map some ∧
      optToList st0.buffer ++ st0.queue = w ++ rest ∧
      ((pollIoPhase maxR maxW st0 q).fired = false →
        rest = optToList (pollIoPhase maxR maxW st0 q).st.buffer ++
               (pollIoPhase maxR maxW st0 q).st.queue) := by
  rw [pollIoPhase]
  simp only []
  split
  · exact ⟨[], optToList st0.buffer ++ st0.queue, rfl, rfl, fun h => by cases h⟩
  · rename_i dataRead heq
    obtain ⟨w, h1, h2⟩ := writeLoop_fifo
      (publishCount maxW (messageCount (refillBuffer st0.buffer st0.queue).1
        (refillBuffer st0.buffer st0.queue).2.length))
      (refillBuffer st0.buffer st0.queue).1
      (refillBuffer st0.buffer st0.queue).2 q.writes
      (publishCount_le _ _)
    rw [refillBuffer_flush] at h2
    split
    · rename_i written buf2 qu2 heq2
      rw [heq2] at h1 h2
      exact ⟨w, optToList buf2 ++ qu2, h1, by simpa [List.append_assoc] using h2,
        fun h => by cases h⟩
    · rename_i written buf2 qu2 heq2
      rw [heq2] at h1 h2
      exact ⟨w, optToList buf2 ++ qu2, h1, by simpa [List.append_assoc] using h2,
        fun _ => rfl⟩

theorem closeConn_closed (st : ConnState) : (closeConn st).closed = true := by
  unfold closeConn
  by_cases h : st.closed = true <;> simp [h]

/-- The written-so-far/sent-so-far relationship maintained across
operations: the written buffers are whole sent messages in send order, a
prefix of the sent sequence, and — while the connection has not closed —
the unsent remainder is exactly the in-flight buffer followed by the
queue. -/
def C8Inv (st : ConnState) (sent : List Data)
    (written : List (Option Data)) : Prop :=
  ∃ w, written = w.map some ∧ w <+: sent ∧
    (st.closed = false → sent = w ++ optToList st.buffer ++ st.queue)

theorem connStep_c8 (maxR maxW : Option Nat) (st : ConnState) (op : ConnOp)
    (sent : List Data) (written : List (Option Data))
    (h : C8Inv st sent written) :
    C8Inv (connStep maxR maxW st op).post
      (sent ++ optToList (connStep maxR maxW st op).sentOk)
      (written ++ (connStep maxR maxW st op).written) := by
  obtain ⟨w, hw1, hw2, hw3⟩ := h
  cases op with
  | close =>
    refine ⟨w, by simpa [connStep] using hw1,
      by simpa [connStep, optToList] using hw2, fun hc => ?_⟩
    have : (connStep maxR maxW st ConnOp.close).post.closed = true :=
      closeConn_closed st
    rw [this] at hc
    cases hc
  | send d =>
    by_cases hc : st.closed = true
    · have hpost : (connStep maxR maxW st (ConnOp.send d)).post = st := by
        rw [connStep_send_post, if_pos hc]
      have hsok : (connStep maxR maxW st (ConnOp.send d)).sentOk = none := by
        simp only [connStep, send, hc, if_pos]
      have hwr : (connStep maxR maxW st (ConnOp.send d)).written = [] := by
        simp only [connStep]
        split <;> rfl
      rw [hpost, hsok, hwr]
      exact ⟨w, by simpa using hw1, by simpa [optToList] using hw2,
        fun hcl => by rw [hc] at hcl; cases hcl⟩
    · simp only [Bool.not_eq_true] at hc
      have hpost : (connStep maxR maxW st (ConnOp.send d)).post =
          { st with queue := st.queue ++ [d] } := by
        rw [connStep_send_post, hc]
        rfl
      have hsok : (connStep maxR maxW st (ConnOp.send d)).sentOk = some d := by
        simp only [connStep, send, hc, Bool.false_eq_true, if_false, ite_false]
      have hwr : (connStep maxR maxW st (ConnOp.send d)).written = [] := by
        simp only [connStep]
        split <;> rfl
      rw [hpost, hsok, hwr]
      refine ⟨w, by simpa using hw1,
        hw2.trans (List.prefix_append sent [d]), fun _ => ?_⟩
      rw [hw3 hc]
      simp [optToList, List.append_assoc]
  | poll q =>
    have hsok : (connStep maxR maxW st (ConnOp.poll q)).sentOk = none := rfl
    have hpost : (connStep maxR maxW st (ConnOp.poll q)).post =
        (poll maxR maxW st q).st := rfl
    have hwr : (connStep maxR maxW st (ConnOp.poll q)).written =
        (poll maxR maxW st q).written := rfl
    rw [hsok, hpost, hwr]
    by_cases hc : st.closed = true
    · -- closed before the poll: no I/O happens, only the queue may drop
      rw [poll_eq]
      cases hw : st.was_closed <;>
        simp only [hc, hw, if_true, if_false, ite_true, ite_false]
      · exact ⟨w, by simpa using hw1, by simpa [optToList] using hw2,
          fun hcl => by cases hcl⟩
      · exact ⟨w, by simpa using hw1, by simpa [optToList] using hw2,
          fun hcl => by rw [hc] at hcl; cases hcl⟩
    · simp only [Bool.not_eq_true] at hc
      have hio : poll maxR maxW st q = pollIoPhase maxR maxW st q := by
        rw [poll_eq]
        cases hw : st.was_closed <;> simp [hc, hw]
      rw [hio]
      obtain ⟨w', rest, hA, hB, hC⟩ := pollIoPhase_written maxR maxW st q
      have hsent' : sent = w ++ (w' ++ rest) := by
        rw [hw3 hc, List.append_assoc, hB]
      refine ⟨w ++ w', ?_, ?_, fun hcl => ?_⟩
      · rw [hA, hw1, List.map_append]
      · refine ⟨rest, ?_⟩
        simp only [optToList, List.append_nil]
        rw [List.append_assoc]
        exact hsent'.symm
      · have hf : (pollIoPhase maxR maxW st q).fired = false := by
          rcases pollIoPhase_post maxR maxW st q with ⟨h1, h2, _, _⟩ | ⟨h1, _, _⟩
          · rw [h2] at hcl; cases hcl
          · exact h1
        rw [hsent', hC hf]
        simp [optToList, List.append_assoc]

theorem connTrace_c8 (maxR maxW : Option Nat) :
    ∀ (ops : List ConnOp) (st : ConnState) (sent : List Data)
      (written : List (Option Data)), C8Inv st sent written →
      C8Inv (connRun maxR maxW st ops)
        (sent ++ sentAll (connTrace maxR maxW st ops))
        (written ++ writtenAll (connTrace maxR maxW st ops)) := by
  intro ops
  induction ops with
  | nil =>
    intro st sent written h
    simpa [connTrace, connRun, sentAll, writtenAll] using h
  | cons op rest ih =>
    intro st sent written h
    have hstep := connStep_c8 maxR maxW st op sent written h
    have hrec := ih (connStep maxR maxW st op).post
      (sent ++ optToList (connStep maxR maxW st op).sentOk)
      (written ++ (connStep maxR maxW st op).written) hstep
    simpa [connTrace, connRun, sentAll, writtenAll, List.foldl,
      List.append_assoc] using hrec

/-- C8: across any operation sequence on one connection instance, the
buffers successfully written to the transport are whole sent messages, in
send order, forming a prefix of the sent sequence — never split, reordered
or duplicated — and as long as the connection has not closed nothing is
dropped: the unwritten remainder is exactly the in-flight buffer followed
by the queue. -/
theorem C8_fifo_write_prefix (maxR maxW : Option Nat) (ops : List ConnOp) :
    ∃ w : List Data,
      writtenAll (connTrace maxR maxW initConn ops) = w.map some ∧
      w <+: sentAll (connTrace maxR maxW initConn ops) ∧
      ((connRun maxR maxW initConn ops).closed = false →
        sentAll (connTrace maxR maxW initConn ops) =
          w ++ optToList (connRun maxR maxW initConn ops).buffer ++
            (connRun maxR maxW initConn ops).queue) := by
  have h0 : C8Inv initConn [] [] :=
    ⟨[], rfl, List.nil_prefix, fun _ => rfl⟩
  have h := connTrace_c8 maxR maxW ops initConn [] [] h0
  simpa [C8Inv] using h

/-- Witness for C8 on a concrete run: send one message, then poll with one
successful transport write; the theorem instance exhibits the written
prefix for that run. -/
theorem C8_fifo_write_prefix_witness :
    ∃ w : List Data,
      writtenAll (connTrace none none initConn
        [ConnOp.send [1], ConnOp.poll ⟨true, [], [IORes.ok true]⟩]) =
          w.map some ∧
      w <+: sentAll (connTrace none none initConn
        [ConnOp.send [1], ConnOp.poll ⟨true, [], [IORes.ok true]⟩]) ∧
      ((connRun none none initConn
          [ConnOp.send [1], ConnOp.poll ⟨true, [], [IORes.ok true]⟩]).closed =
            false →
        sentAll (connTrace none none initConn
          [ConnOp.send [1], ConnOp.poll ⟨true, [], [IORes.ok true]⟩]) =
          w ++ optToList (connRun none none initConn
            [ConnOp.send [1], ConnOp.poll ⟨true, [], [IORes.ok true]⟩]).buffer ++
            (connRun none none initConn
              [ConnOp.send [1], ConnOp.poll ⟨true, [], [IORes.ok true]⟩]).queue) :=
  C8_fifo_write_prefix none none
    [ConnOp.send [1], ConnOp.poll ⟨true, [], [IORes.ok true]⟩]

end NetworkOptimizer
